import Mathlib

/-
  Verification development for the go-neural-network repository.

  The network/layer code (NewNetwork, layerConstructor, Predict, ForwardPass,
  Train, BackwardPass, UpdateWeights) is translated from the Go source file.
  The matrix-utility collaborators (Multiply, Add, Subtract, Scale, Map,
  MultiplyElems, Transpose, Update) and the weight initializer / activation
  pair are not part of the provided source; they are modelled from the spec's
  external-interface contracts (spec section 6) and passed as parameters where
  the spec treats them as injectable collaborators.
-/

namespace GoNN

/-- Modelled from the spec: the dense-matrix collaborator (gonum mat.Dense).
A matrix is a stored shape together with a total entry function; entries
outside the stored shape are junk and never observed by in-shape reasoning.
Entries are rationals, standing in for the ideal arithmetic the float64
expressions denote. Shape-mismatched operations fail at the library level in
the original (spec section 7 calls this behavior undefined); here every
operation is total and is only ever used under the shape preconditions the
spec states. -/
structure Mat where
  rows : Nat
  cols : Nat
  entry : Nat → Nat → ℚ

/-- Modelled from the spec: mat.NewDense(r, c, nil), the all-zero r by c matrix. -/
def Mat.zeros (r c : Nat) : Mat :=
  ⟨r, c, fun _ _ => 0⟩

/-- Modelled from the spec: matrix product; requires cols a = rows b. -/
def Multiply (a b : Mat) : Mat :=
  ⟨a.rows, b.cols, fun i j => ∑ k ∈ Finset.range a.cols, a.entry i k * b.entry k j⟩

/-- Modelled from the spec: element-wise sum; requires equal shapes. -/
def Add (a b : Mat) : Mat :=
  ⟨a.rows, a.cols, fun i j => a.entry i j + b.entry i j⟩

/-- Modelled from the spec: element-wise difference; requires equal shapes. -/
def Subtract (a b : Mat) : Mat :=
  ⟨a.rows, a.cols, fun i j => a.entry i j - b.entry i j⟩

/-- Modelled from the spec: scalar multiple. -/
def Scale (c : ℚ) (a : Mat) : Mat :=
  ⟨a.rows, a.cols, fun i j => c * a.entry i j⟩

/-- Modelled from the spec: element-wise (Hadamard) product; requires equal shapes. -/
def MultiplyElems (a b : Mat) : Mat :=
  ⟨a.rows, a.cols, fun i j => a.entry i j * b.entry i j⟩

/-- Modelled from the spec: transpose. -/
def Transpose (a : Mat) : Mat :=
  ⟨a.cols, a.rows, fun i j => a.entry j i⟩

/-- Modelled from the spec: element-wise map with an (row, col, value) function
(gonum Apply). -/
def Map (f : Nat → Nat → ℚ → ℚ) (a : Mat) : Mat :=
  ⟨a.rows, a.cols, fun i j => f i j (a.entry i j)⟩

/-- Modelled from the spec: the Update helper produces a dense hard copy of its
argument (spec section 9, in-place hard-copy design note); at the value level
it is the identity. -/
def Update (a : Mat) : Mat := a

/-- Modelled from the spec: extract row i of a matrix as a standalone 1-row
matrix (RawRowView followed by mat.NewDense(1, cols, row)). -/
def rowOf (m : Mat) (i : Nat) : Mat :=
  ⟨1, m.cols, fun _ j => m.entry i j⟩

/-- Layer holds computational state, translated from the Go Layer struct.
The activation function and its derivative are stored as (row, col, value)
functions exactly as in the source. -/
structure Layer where
  Bias : Mat
  Weights : Mat
  Delta : Mat
  Gradient : Mat
  Activations : Mat
  ActivationFunc : Nat → Nat → ℚ → ℚ
  ActivationPrimeFunc : Nat → Nat → ℚ → ℚ
  IsLastLayer : Bool

instance : Inhabited Layer :=
  ⟨⟨Mat.zeros 1 1, Mat.zeros 1 1, Mat.zeros 1 1, Mat.zeros 1 1, Mat.zeros 1 1,
    fun _ _ v => v, fun _ _ v => v, false⟩⟩

/-- Network is the object that holds the model state, translated from the Go
Network struct. -/
structure Network where
  Layers : List Layer
  NeuronsPerLayer : Nat
  NumberOfLayers : Nat

/-- layerConstructor, translated from the source. The source hardcodes the
Sigmoid pair; that pair lives in the matrix-utility file outside the provided
source, so it is received here as the actF / actFP parameters (spec section 6
treats the activation pair as an external collaborator). Bias is a 1 by
weights.cols zero matrix; Delta, Gradient and Activations start as 1 by 1
placeholder matrices exactly as in the source. -/
def layerConstructor (weights : Mat) (isLastLayer : Bool)
    (actF actFP : Nat → Nat → ℚ → ℚ) : Layer :=
  { Weights := weights
    IsLastLayer := isLastLayer
    ActivationFunc := actF
    ActivationPrimeFunc := actFP
    Bias := Mat.zeros 1 weights.cols
    Delta := Mat.zeros 1 1
    Gradient := Mat.zeros 1 1
    Activations := Mat.zeros 1 1 }

/-- NewNetwork, translated from the source. KaimingInitialization lives outside
the provided source; it is modelled from the spec as the injectable initializer
weightInit, called with (fan in, fan out) once per layer. The source's hidden
layer loop runs the same construction numberOfHiddenLayers times, giving the
replicate below. The returned error is the source's literal nil. -/
def NewNetwork (neuronsPerLayer numberOfHiddenLayers numberOfInputs : Nat)
    (weightInit : Nat → Nat → Mat) (actF actFP : Nat → Nat → ℚ → ℚ) :
    Network × Option String :=
  let inputLayer := layerConstructor (weightInit numberOfInputs neuronsPerLayer) false actF actFP
  let hidden := List.replicate numberOfHiddenLayers
    (layerConstructor (weightInit neuronsPerLayer neuronsPerLayer) false actF actFP)
  let outputLayer := layerConstructor (weightInit neuronsPerLayer 1) true actF actFP
  ({ Layers := inputLayer :: (hidden ++ [outputLayer])
     NeuronsPerLayer := neuronsPerLayer
     NumberOfLayers := numberOfHiddenLayers + 2 }, none)

/-- ForwardPass, translated from the source: z = input times weights, add the
bias, then hard-copy the mapped activation and activation-derivative matrices
into the layer's caches. -/
def ForwardPass (layer : Layer) (input : Mat) : Layer :=
  let z := Multiply input layer.Weights
  let zB := Add z layer.Bias
  { layer with
      Activations := Update (Map layer.ActivationFunc zB)
      Gradient := Update (Map layer.ActivationPrimeFunc zB) }

/-- Loop body of Predict: run every layer's forward pass in order, threading
each layer's activations as the next input; returns the updated layers and the
final threaded matrix. -/
def predictLayers : List Layer → Mat → List Layer × Mat
  | [], currentInput => ([], currentInput)
  | layer :: rest, currentInput =>
      let layer' := ForwardPass layer currentInput
      let rest' := predictLayers rest layer'.Activations
      (layer' :: rest'.1, rest'.2)

/-- Predict, translated from the source. In Go the loop mutates the layers'
caches through shared pointers and returns the last activations; here the
updated network is returned alongside the output. -/
def Predict (network : Network) (input : Mat) : Network × Mat :=
  ({ network with Layers := (predictLayers network.Layers input).1 },
   (predictLayers network.Layers input).2)

/-- BackwardPass, translated from the source: the output layer turns
(activations minus target) Hadamard gradient into its delta; every other layer
projects the right neighbour's delta back through the transposed weights and
multiplies by its own gradient. -/
def BackwardPass (layer : Layer) (target : Mat) (rightLayer : Layer) : Layer :=
  if layer.IsLastLayer then
    let err := Subtract layer.Activations target
    { layer with Delta := Update (MultiplyElems err layer.Gradient) }
  else
    let back := Multiply rightLayer.Delta (Transpose rightLayer.Weights)
    { layer with Delta := Update (MultiplyElems back layer.Gradient) }

/-- UpdateWeights, translated from the source: one gradient-descent step on the
weights and the bias using the stored delta. -/
def UpdateWeights (layer : Layer) (learningRate : ℚ) (leftA : Mat) : Layer :=
  let ad := Multiply (Transpose leftA) layer.Delta
  let change := Scale learningRate ad
  let dB := Scale learningRate layer.Delta
  { layer with
      Weights := Update (Subtract layer.Weights change)
      Bias := Update (Subtract layer.Bias dB) }

/-- Backward loop of Train, translated from the source: for j from n - 1 down
to 0, run layer j's backward pass against the threaded lastLayer and then rebind
lastLayer to the freshly updated layer j. An out-of-range index would be a
library-level failure in Go; the placeholder default stands in for it and is
never reached on the in-range calls Train makes. -/
def backwardFrom (target : Mat) : Nat → List Layer → Layer → List Layer × Layer
  | 0, layers, lastLayer => (layers, lastLayer)
  | j + 1, layers, lastLayer =>
      let updated := BackwardPass (layers.getD j default) target lastLayer
      backwardFrom target j (layers.set j updated) updated

/-- Update loop of Train, translated from the source: left to right, update
each layer's weights with the threaded left activations, then thread that
layer's (unchanged by the update) activations onward. -/
def updateLoop (learningRate : ℚ) : List Layer → Mat → List Layer
  | [], _ => []
  | layer :: rest, currInput =>
      let layer' := UpdateWeights layer learningRate currInput
      layer' :: updateLoop learningRate rest layer'.Activations

/-- One sample of Train, translated from the source: predict on the extracted
row to set the caches, run the backward loop from the last index down, then
run the update loop forward from the original sample input. The source
re-extracts the target row inside the backward loop; the value is the same
every iteration, so it is bound once here. -/
def trainSample (network : Network) (tempInput tempTarget : Mat)
    (learningRate : ℚ) (lastLayer : Layer) : Network × Layer :=
  let predicted := (Predict network tempInput).1
  let swept := backwardFrom tempTarget network.NumberOfLayers predicted.Layers lastLayer
  let layersU := updateLoop learningRate swept.1 tempInput
  ({ predicted with Layers := layersU }, swept.2)

/-- One epoch of Train, translated from the source: visit rows 0 to
inputRows - 1 of the batch in order, threading the network and the lastLayer
register through the samples. -/
def epochBody (batchInput batchTarget : Mat) (learningRate : ℚ)
    (st : Network × Layer) : Network × Layer :=
  (List.range batchInput.rows).foldl
    (fun st i => trainSample st.1 (rowOf batchInput i) (rowOf batchTarget i) learningRate st.2)
    st

/-- Epoch loop of Train: the Go loop (for ; epochs > 0; epochs--) runs the
identical epoch body max(epochs, 0) times. -/
def trainEpochs (batchInput batchTarget : Mat) (learningRate : ℚ) :
    Nat → Network × Layer → Network × Layer
  | 0, st => st
  | n + 1, st => trainEpochs batchInput batchTarget learningRate n
      (epochBody batchInput batchTarget learningRate st)

/-- Train, translated from the source. The lastLayer register is seeded with
the layer at index NumberOfLayers - 1 once, before the epoch loop, exactly as
in the source. epochs is a Go int, hence an integer here; the loop body runs
epochs.toNat times. -/
def Train (network : Network) (batchInput batchTarget : Mat)
    (learningRate : ℚ) (epochs : Int) : Network :=
  let lastLayer := network.Layers.getD (network.NumberOfLayers - 1) default
  (trainEpochs batchInput batchTarget learningRate epochs.toNat (network, lastLayer)).1

/-- Identity activation pair used to instantiate concrete networks in witnesses. -/
def idAct : Nat → Nat → ℚ → ℚ := fun _ _ v => v

/-- C9: network construction is the only operation with an error result, and
that error surface is vacuous: for every architecture triple (and any
initializer and activation pair) NewNetwork returns a network together with a
nil error. -/
theorem newNetwork_err_none (n h w : Nat) (weightInit : Nat → Nat → Mat)
    (actF actFP : Nat → Nat → ℚ → ℚ) :
    (NewNetwork n h w weightInit actF actFP).2 = none := rfl

/-- C1: for a 1-row input whose width equals the weight row count, ForwardPass
computes z = input times weights, adds the bias row, and overwrites the
activations cache with the element-wise activation of the biased sum and the
gradient cache with the element-wise activation derivative of the same biased
sum; weights, bias and delta are left untouched. -/
theorem forwardPass_computes (layer : Layer) (input : Mat)
    (hr : input.rows = 1) (hc : input.cols = layer.Weights.rows) :
    ((ForwardPass layer input).Activations.rows = 1
      ∧ (ForwardPass layer input).Activations.cols = layer.Weights.cols
      ∧ (ForwardPass layer input).Gradient.rows = 1
      ∧ (ForwardPass layer input).Gradient.cols = layer.Weights.cols)
    ∧ (∀ i j, (ForwardPass layer input).Activations.entry i j =
        layer.ActivationFunc i j
          ((∑ k ∈ Finset.range layer.Weights.rows, input.entry i k * layer.Weights.entry k j)
            + layer.Bias.entry i j))
    ∧ (∀ i j, (ForwardPass layer input).Gradient.entry i j =
        layer.ActivationPrimeFunc i j
          ((∑ k ∈ Finset.range layer.Weights.rows, input.entry i k * layer.Weights.entry k j)
            + layer.Bias.entry i j))
    ∧ (ForwardPass layer input).Weights = layer.Weights
    ∧ (ForwardPass layer input).Bias = layer.Bias
    ∧ (ForwardPass layer input).Delta = layer.Delta := by
  refine ⟨⟨?_, ?_, ?_, ?_⟩, ?_, ?_, rfl, rfl, rfl⟩ <;>
    simp [ForwardPass, Multiply, Add, Map, Update, hr, hc]

/-- Witness for C1 at a concrete layer and input. -/
theorem forwardPass_computes_witness :
    (Mat.zeros 1 2).rows = 1
    ∧ (Mat.zeros 1 2).cols = (layerConstructor (Mat.zeros 2 3) false idAct idAct).Weights.rows
    ∧ (ForwardPass (layerConstructor (Mat.zeros 2 3) false idAct idAct) (Mat.zeros 1 2)).Activations.cols
        = (layerConstructor (Mat.zeros 2 3) false idAct idAct).Weights.cols :=
  ⟨rfl, rfl, (forwardPass_computes (layerConstructor (Mat.zeros 2 3) false idAct idAct)
      (Mat.zeros 1 2) rfl rfl).1.2.1⟩

/-- C2: BackwardPass overwrites only the delta cache: for the output layer the
new delta is (activations minus target) Hadamard gradient; for every other
layer it is (rightLayer delta times transposed rightLayer weights) Hadamard
the layer's own gradient, and in that case the target argument is not used at
all; activations, gradient, weights and bias are untouched. -/
theorem backwardPass_computes (layer : Layer) (target : Mat) (rightLayer : Layer) :
    ((layer.IsLastLayer = true →
        (BackwardPass layer target rightLayer).Delta.rows = layer.Activations.rows
        ∧ (BackwardPass layer target rightLayer).Delta.cols = layer.Activations.cols
        ∧ ∀ i j, (BackwardPass layer target rightLayer).Delta.entry i j =
            (layer.Activations.entry i j - target.entry i j) * layer.Gradient.entry i j)
      ∧ (layer.IsLastLayer = false →
        ((BackwardPass layer target rightLayer).Delta.rows = rightLayer.Delta.rows
          ∧ (BackwardPass layer target rightLayer).Delta.cols = rightLayer.Weights.rows
          ∧ ∀ i j, (BackwardPass layer target rightLayer).Delta.entry i j =
              (∑ k ∈ Finset.range rightLayer.Delta.cols,
                  rightLayer.Delta.entry i k * rightLayer.Weights.entry j k)
                * layer.Gradient.entry i j)
        ∧ ∀ target2, BackwardPass layer target rightLayer = BackwardPass layer target2 rightLayer))
    ∧ ((BackwardPass layer target rightLayer).Weights = layer.Weights
        ∧ (BackwardPass layer target rightLayer).Bias = layer.Bias
        ∧ (BackwardPass layer target rightLayer).Gradient = layer.Gradient
        ∧ (BackwardPass layer target rightLayer).Activations = layer.Activations) := by
  cases h : layer.IsLastLayer <;>
    simp [BackwardPass, h, Subtract, MultiplyElems, Multiply, Transpose, Update]

/-- Witness for C2 at a concrete output layer: the delta entry equals
(activation minus target) times gradient there. -/
theorem backwardPass_computes_witness :
    (layerConstructor (Mat.zeros 2 1) true idAct idAct).IsLastLayer = true
    ∧ ∀ i j, (BackwardPass (layerConstructor (Mat.zeros 2 1) true idAct idAct)
          (Mat.zeros 1 1) default).Delta.entry i j =
        ((layerConstructor (Mat.zeros 2 1) true idAct idAct).Activations.entry i j
            - (Mat.zeros 1 1).entry i j)
          * (layerConstructor (Mat.zeros 2 1) true idAct idAct).Gradient.entry i j :=
  ⟨rfl, ((backwardPass_computes (layerConstructor (Mat.zeros 2 1) true idAct idAct)
      (Mat.zeros 1 1) default).1.1 rfl).2.2⟩

/-- C3: one UpdateWeights step with learning rate eta replaces the weights by
oldWeights minus eta times (transpose of the left activations times delta) and
the bias by oldBias minus eta times delta, and changes no other layer field. -/
theorem updateWeights_computes (layer : Layer) (eta : ℚ) (x : Mat) (heta : 0 < eta) :
    ((UpdateWeights layer eta x).Weights.rows = layer.Weights.rows
      ∧ (UpdateWeights layer eta x).Weights.cols = layer.Weights.cols
      ∧ ∀ i j, (UpdateWeights layer eta x).Weights.entry i j =
          layer.Weights.entry i j
            - eta * ∑ k ∈ Finset.range x.rows, x.entry k i * layer.Delta.entry k j)
    ∧ ((UpdateWeights layer eta x).Bias.rows = layer.Bias.rows
      ∧ (UpdateWeights layer eta x).Bias.cols = layer.Bias.cols
      ∧ ∀ i j, (UpdateWeights layer eta x).Bias.entry i j =
          layer.Bias.entry i j - eta * layer.Delta.entry i j)
    ∧ (UpdateWeights layer eta x).Delta = layer.Delta
    ∧ (UpdateWeights layer eta x).Gradient = layer.Gradient
    ∧ (UpdateWeights layer eta x).Activations = layer.Activations
    ∧ (UpdateWeights layer eta x).ActivationFunc = layer.ActivationFunc
    ∧ (UpdateWeights layer eta x).ActivationPrimeFunc = layer.ActivationPrimeFunc
    ∧ (UpdateWeights layer eta x).IsLastLayer = layer.IsLastLayer := by
  refine ⟨⟨rfl, rfl, ?_⟩, ⟨rfl, rfl, ?_⟩, rfl, rfl, rfl, rfl, rfl, rfl⟩ <;>
    simp [UpdateWeights, Multiply, Transpose, Scale, Subtract, Update]

/-- Witness for C3 at a concrete layer, learning rate and left activations. -/
theorem updateWeights_computes_witness :
    (0 : ℚ) < 1
    ∧ ∀ i j, (UpdateWeights (layerConstructor (Mat.zeros 2 3) false idAct idAct) 1
          (Mat.zeros 1 2)).Bias.entry i j =
        (layerConstructor (Mat.zeros 2 3) false idAct idAct).Bias.entry i j
          - 1 * (layerConstructor (Mat.zeros 2 3) false idAct idAct).Delta.entry i j :=
  ⟨by norm_num, (updateWeights_computes (layerConstructor (Mat.zeros 2 3) false idAct idAct)
      1 (Mat.zeros 1 2) (by norm_num)).2.1.2.2⟩

lemma epochBody_rows_zero (bi bt : Mat) (lr : ℚ) (h : bi.rows = 0) (st : Network × Layer) :
    epochBody bi bt lr st = st := by
  simp [epochBody, h]

lemma trainEpochs_rows_zero (bi bt : Mat) (lr : ℚ) (h : bi.rows = 0) :
    ∀ (n : Nat) (st : Network × Layer), trainEpochs bi bt lr n st = st
  | 0, st => rfl
  | n + 1, st => by
      show trainEpochs bi bt lr n (epochBody bi bt lr st) = st
      rw [epochBody_rows_zero bi bt lr h st]
      exact trainEpochs_rows_zero bi bt lr h n st

/-- C10: Train with a nonpositive epoch count, or with an empty input batch,
performs no pass at all and returns the network unchanged. -/
theorem train_noop (net : Network) (bi bt : Mat) (lr : ℚ) (epochs : Int) :
    (epochs ≤ 0 → Train net bi bt lr epochs = net)
    ∧ (bi.rows = 0 → Train net bi bt lr epochs = net) := by
  constructor
  · intro h
    have h0 : epochs.toNat = 0 := Int.toNat_of_nonpos h
    simp [Train, h0, trainEpochs]
  · intro h
    simp [Train, trainEpochs_rows_zero bi bt lr h]

/-- Witness for C10: zero epochs on a concrete network. -/
theorem train_noop_witness :
    ((0 : Int) ≤ 0)
    ∧ Train (NewNetwork 1 0 1 Mat.zeros idAct idAct).1 (Mat.zeros 1 1) (Mat.zeros 1 1) 1 0
        = (NewNetwork 1 0 1 Mat.zeros idAct idAct).1 :=
  ⟨le_refl 0,
   (train_noop (NewNetwork 1 0 1 Mat.zeros idAct idAct).1
      (Mat.zeros 1 1) (Mat.zeros 1 1) 1 0).1 (le_refl 0)⟩

lemma predictLayers_frame : ∀ (layers : List Layer) (x : Mat) (i : Nat),
    ((predictLayers layers x).1.getD i default).Weights = (layers.getD i default).Weights
    ∧ ((predictLayers layers x).1.getD i default).Bias = (layers.getD i default).Bias
    ∧ ((predictLayers layers x).1.getD i default).Delta = (layers.getD i default).Delta
  | [], _, _ => ⟨rfl, rfl, rfl⟩
  | l :: rest, x, 0 => by simp [predictLayers, ForwardPass]
  | l :: rest, x, i + 1 => by
      have ih := predictLayers_frame rest (ForwardPass l x).Activations i
      simpa [predictLayers] using ih

lemma forwardPass_idem (l : Layer) (x : Mat) :
    ForwardPass (ForwardPass l x) x = ForwardPass l x := rfl

lemma predictLayers_idem : ∀ (layers : List Layer) (x : Mat),
    predictLayers (predictLayers layers x).1 x = predictLayers layers x
  | [], _ => rfl
  | l :: rest, x => by
      have ih := predictLayers_idem rest (ForwardPass l x).Activations
      simp [predictLayers, forwardPass_idem, ih]

lemma predict_predict (net : Network) (x : Mat) :
    Predict (Predict net x).1 x = Predict net x := by
  simp [Predict, predictLayers_idem]

/-- Iterated prediction: run Predict k times on the same input, keeping the
mutated caches, as a client looping on Predict without Train would. -/
def predictIterNet (x : Mat) : Nat → Network → Network
  | 0, net => net
  | k + 1, net => predictIterNet x k (Predict net x).1

lemma predictIter_predict (x : Mat) : ∀ (k : Nat) (net : Network),
    Predict (predictIterNet x k net) x = Predict net x
  | 0, _ => rfl
  | k + 1, net => (predictIter_predict x k (Predict net x).1).trans (predict_predict net x)

lemma predictIterNet_frame (x : Mat) : ∀ (k : Nat) (net : Network) (i : Nat),
    ((predictIterNet x k net).Layers.getD i default).Weights
      = (net.Layers.getD i default).Weights
  | 0, _, _ => rfl
  | k + 1, net, i => by
      have ih := predictIterNet_frame x k (Predict net x).1 i
      have h1 := (predictLayers_frame net.Layers x i).1
      exact ih.trans h1

/-- C7: Predict mutates only the activation and gradient caches: every layer's
weights, bias and delta are the same before and after, any number of repeated
Predict calls leaves the weights unchanged, a repeated call is idempotent on
the whole network state, and the output for the same input is unchanged after
any number of prior Predict calls. -/
theorem predict_pure (net : Network) (x : Mat) (i k : Nat) :
    ((Predict net x).1.Layers.getD i default).Weights = (net.Layers.getD i default).Weights
    ∧ ((Predict net x).1.Layers.getD i default).Bias = (net.Layers.getD i default).Bias
    ∧ ((Predict net x).1.Layers.getD i default).Delta = (net.Layers.getD i default).Delta
    ∧ ((predictIterNet x k net).Layers.getD i default).Weights
        = (net.Layers.getD i default).Weights
    ∧ Predict (Predict net x).1 x = Predict net x
    ∧ (Predict (predictIterNet x k net) x).2 = (Predict net x).2 := by
  obtain ⟨h1, h2, h3⟩ := predictLayers_frame net.Layers x i
  exact ⟨h1, h2, h3, predictIterNet_frame x k net i, predict_predict net x,
    congrArg Prod.snd (predictIter_predict x k net)⟩

/-- C8 counterexample: at construction the caches are 1 by 1 placeholders, so
for a layer whose weight matrix has two columns the activations column count
differs from the weights column count; the five-way column equality is not
established at construction. -/
theorem layer_cols_cex :
    ¬ ((layerConstructor (Mat.zeros 2 2) false idAct idAct).Activations.cols
        = (layerConstructor (Mat.zeros 2 2) false idAct idAct).Weights.cols) := by
  decide

/-- C8 amended: bias and weights agree on column count from construction on,
while the caches start as 1 by 1 placeholders; the forward pass establishes
the activations and gradient column counts, the backward pass gives the delta
the activations width on the output layer and the right neighbour's weight row
count elsewhere (the weight column count under the network's shape-chaining
invariant), and the weight update preserves every column count and every
cache. -/
theorem layer_cols_invariant (weights : Mat) (flag : Bool) (f g : Nat → Nat → ℚ → ℚ)
    (l r : Layer) (x t : Mat) (eta : ℚ) :
    ((layerConstructor weights flag f g).Bias.cols = (layerConstructor weights flag f g).Weights.cols
      ∧ (layerConstructor weights flag f g).Activations.cols = 1
      ∧ (layerConstructor weights flag f g).Gradient.cols = 1
      ∧ (layerConstructor weights flag f g).Delta.cols = 1)
    ∧ ((ForwardPass l x).Activations.cols = l.Weights.cols
      ∧ (ForwardPass l x).Gradient.cols = l.Weights.cols
      ∧ (ForwardPass l x).Weights = l.Weights
      ∧ (ForwardPass l x).Bias = l.Bias
      ∧ (ForwardPass l x).Delta = l.Delta)
    ∧ ((l.IsLastLayer = true → (BackwardPass l t r).Delta.cols = l.Activations.cols)
      ∧ (l.IsLastLayer = false → (BackwardPass l t r).Delta.cols = r.Weights.rows)
      ∧ (BackwardPass l t r).Weights = l.Weights
      ∧ (BackwardPass l t r).Bias = l.Bias
      ∧ (BackwardPass l t r).Activations = l.Activations
      ∧ (BackwardPass l t r).Gradient = l.Gradient)
    ∧ ((UpdateWeights l eta x).Weights.cols = l.Weights.cols
      ∧ (UpdateWeights l eta x).Bias.cols = l.Bias.cols
      ∧ (UpdateWeights l eta x).Activations = l.Activations
      ∧ (UpdateWeights l eta x).Gradient = l.Gradient
      ∧ (UpdateWeights l eta x).Delta = l.Delta) := by
  refine ⟨⟨rfl, rfl, rfl, rfl⟩, ⟨rfl, rfl, rfl, rfl, rfl⟩,
    ⟨fun hl => by simp [BackwardPass, hl, MultiplyElems, Subtract, Update],
     fun hl => by simp [BackwardPass, hl, MultiplyElems, Multiply, Transpose, Update],
     ?_, ?_, ?_, ?_⟩, rfl, rfl, rfl, rfl, rfl⟩ <;>
    cases hl : l.IsLastLayer <;> simp [BackwardPass, hl]

/-- Witness for C8 amended, on a concrete output layer. -/
theorem layer_cols_invariant_witness :
    (layerConstructor (Mat.zeros 2 1) true idAct idAct).IsLastLayer = true
    ∧ (BackwardPass (layerConstructor (Mat.zeros 2 1) true idAct idAct)
          (Mat.zeros 1 1) default).Delta.cols
        = (layerConstructor (Mat.zeros 2 1) true idAct idAct).Activations.cols :=
  ⟨rfl, ((layer_cols_invariant (Mat.zeros 2 1) true idAct idAct
      (layerConstructor (Mat.zeros 2 1) true idAct idAct) default
      (Mat.zeros 1 1) (Mat.zeros 1 1) 1).2.2.1.1 rfl)⟩

lemma getD_rep_app_lt (c b d : Layer) : ∀ (h j : Nat), j < h →
    (List.replicate h c ++ [b]).getD j d = c
  | 0, j, hj => absurd hj (Nat.not_lt_zero j)
  | h + 1, 0, _ => rfl
  | h + 1, j + 1, hj => by
      simpa [List.replicate_succ] using getD_rep_app_lt c b d h j (Nat.lt_of_succ_lt_succ hj)

lemma getD_rep_app_eq (c b d : Layer) : ∀ (h : Nat),
    (List.replicate h c ++ [b]).getD h d = b
  | 0 => rfl
  | h + 1 => by
      simpa [List.replicate_succ] using getD_rep_app_eq c b d h

/-- C4: NewNetwork builds hiddenLayerCount + 2 layers in order: an input-facing
layer with inputWidth by neuronsPerLayer weights, hiddenLayerCount hidden
layers with square neuronsPerLayer weights, and one final layer with
neuronsPerLayer by 1 weights; the final layer is the only one flagged as the
output layer, every bias starts as a 1 by weights.cols zero matrix, and the
recorded layer count is hiddenLayerCount + 2. The initializer is the spec's
fan-in by fan-out collaborator, assumed to return matrices of the requested
shape. -/
theorem newNetwork_shape (n h w : Nat) (weightInit : Nat → Nat → Mat)
    (actF actFP : Nat → Nat → ℚ → ℚ)
    (hinit : ∀ r c, (weightInit r c).rows = r ∧ (weightInit r c).cols = c) :
    (NewNetwork n h w weightInit actF actFP).1.Layers.length = h + 2
    ∧ (NewNetwork n h w weightInit actF actFP).1.NumberOfLayers = h + 2
    ∧ ((NewNetwork n h w weightInit actF actFP).1.Layers.getD 0 default).Weights.rows = w
    ∧ ((NewNetwork n h w weightInit actF actFP).1.Layers.getD 0 default).Weights.cols = n
    ∧ (∀ i, 1 ≤ i → i ≤ h →
        ((NewNetwork n h w weightInit actF actFP).1.Layers.getD i default).Weights.rows = n
        ∧ ((NewNetwork n h w weightInit actF actFP).1.Layers.getD i default).Weights.cols = n)
    ∧ ((NewNetwork n h w weightInit actF actFP).1.Layers.getD (h + 1) default).Weights.rows = n
    ∧ ((NewNetwork n h w weightInit actF actFP).1.Layers.getD (h + 1) default).Weights.cols = 1
    ∧ (∀ i, i < h + 2 →
        (((NewNetwork n h w weightInit actF actFP).1.Layers.getD i default).IsLastLayer = true
          ↔ i = h + 1))
    ∧ (∀ i, i < h + 2 →
        ((NewNetwork n h w weightInit actF actFP).1.Layers.getD i default).Bias
          = Mat.zeros 1
              (((NewNetwork n h w weightInit actF actFP).1.Layers.getD i default).Weights.cols)) := by
  have hL : (NewNetwork n h w weightInit actF actFP).1.Layers
      = layerConstructor (weightInit w n) false actF actFP
        :: (List.replicate h (layerConstructor (weightInit n n) false actF actFP)
            ++ [layerConstructor (weightInit n 1) true actF actFP]) := rfl
  refine ⟨?_, rfl, ?_, ?_, ?_, ?_, ?_, ?_, ?_⟩
  · rw [hL]
    simp only [List.length_cons, List.length_append, List.length_replicate,
      List.length_nil]
  · exact (hinit w n).1
  · exact (hinit w n).2
  · intro i h1 h2
    obtain ⟨j, rfl⟩ : ∃ j, i = j + 1 := ⟨i - 1, by omega⟩
    rw [hL]
    simp only [List.getD_cons_succ]
    rw [getD_rep_app_lt _ _ _ h j (by omega)]
    exact ⟨(hinit n n).1, (hinit n n).2⟩
  · rw [hL]
    simp only [List.getD_cons_succ]
    rw [getD_rep_app_eq]
    exact (hinit n 1).1
  · rw [hL]
    simp only [List.getD_cons_succ]
    rw [getD_rep_app_eq]
    exact (hinit n 1).2
  · intro i hi
    rw [hL]
    cases i with
    | zero =>
        simp [layerConstructor]
    | succ j =>
        simp only [List.getD_cons_succ]
        rcases Nat.lt_or_ge j h with hj | hj
        · rw [getD_rep_app_lt _ _ _ h j hj]
          simp [layerConstructor]
          omega
        · have hjh : j = h := by omega
          subst hjh
          rw [getD_rep_app_eq]
          simp [layerConstructor]
  · intro i hi
    rw [hL]
    cases i with
    | zero => rfl
    | succ j =>
        simp only [List.getD_cons_succ]
        rcases Nat.lt_or_ge j h with hj | hj
        · rw [getD_rep_app_lt _ _ _ h j hj]
          rfl
        · have hjh : j = h := by omega
          subst hjh
          rw [getD_rep_app_eq]
          rfl

/-- Witness for C4 at the demo architecture (2 neurons, 1 hidden layer, 2 inputs). -/
theorem newNetwork_shape_witness :
    (∀ r c, (Mat.zeros r c).rows = r ∧ (Mat.zeros r c).cols = c)
    ∧ (NewNetwork 2 1 2 Mat.zeros idAct idAct).1.Layers.length = 3 :=
  ⟨fun _ _ => ⟨rfl, rfl⟩,
   (newNetwork_shape 2 1 2 Mat.zeros idAct idAct (fun _ _ => ⟨rfl, rfl⟩)).1⟩

lemma predictLayers_out_rows : ∀ (layers : List Layer) (x : Mat),
    (predictLayers layers x).2.rows = x.rows
  | [], _ => rfl
  | l :: rest, x => by
      simpa [predictLayers] using predictLayers_out_rows rest (ForwardPass l x).Activations

lemma predictLayers_out_cols : ∀ (layers : List Layer) (x : Mat) (lw : Layer),
    layers.getLast? = some lw → (predictLayers layers x).2.cols = lw.Weights.cols
  | [], _, _, hl => by simp at hl
  | [l], x, lw, hl => by
      obtain rfl : l = lw := by simpa using hl
      rfl
  | l :: l2 :: rest, x, lw, hl => by
      have hl' : (l2 :: rest).getLast? = some lw := by
        simpa [List.getLast?_cons_cons] using hl
      simpa [predictLayers] using
        predictLayers_out_cols (l2 :: rest) (ForwardPass l x).Activations lw hl'

lemma predictLayers_act_w_cols : ∀ (layers : List Layer) (x : Mat) (i : Nat),
    ((predictLayers layers x).1.getD i default).Activations.cols
      = ((predictLayers layers x).1.getD i default).Weights.cols
  | [], _, _ => rfl
  | l :: rest, x, 0 => rfl
  | l :: rest, x, i + 1 => by
      simpa [predictLayers] using
        predictLayers_act_w_cols rest (ForwardPass l x).Activations i

/-- C6: on a freshly constructed network (any architecture triple, any
shape-correct initializer), Predict on a 1 by inputWidth input returns a 1 by 1
matrix, and afterwards every layer's cached activations have exactly as many
columns as that layer's weight matrix. -/
theorem predict_output_shape (n h w : Nat) (weightInit : Nat → Nat → Mat)
    (actF actFP : Nat → Nat → ℚ → ℚ) (x : Mat)
    (hinit : ∀ r c, (weightInit r c).rows = r ∧ (weightInit r c).cols = c)
    (hxr : x.rows = 1) (hxc : x.cols = w) :
    (Predict (NewNetwork n h w weightInit actF actFP).1 x).2.rows = 1
    ∧ (Predict (NewNetwork n h w weightInit actF actFP).1 x).2.cols = 1
    ∧ ∀ i, ((Predict (NewNetwork n h w weightInit actF actFP).1 x).1.Layers.getD i
          default).Activations.cols
        = ((Predict (NewNetwork n h w weightInit actF actFP).1 x).1.Layers.getD i
          default).Weights.cols := by
  refine ⟨?_, ?_, ?_⟩
  · have := predictLayers_out_rows (NewNetwork n h w weightInit actF actFP).1.Layers x
    simpa [Predict, this] using hxr
  · have hlast : (NewNetwork n h w weightInit actF actFP).1.Layers.getLast?
        = some (layerConstructor (weightInit n 1) true actF actFP) := by
      show (layerConstructor (weightInit w n) false actF actFP
          :: (List.replicate h (layerConstructor (weightInit n n) false actF actFP)
              ++ [layerConstructor (weightInit n 1) true actF actFP])).getLast? = _
      rw [← List.cons_append]
      exact List.getLast?_concat _
    have hcols := predictLayers_out_cols (NewNetwork n h w weightInit actF actFP).1.Layers
      x _ hlast
    show (predictLayers (NewNetwork n h w weightInit actF actFP).1.Layers x).2.cols = 1
    rw [hcols]
    exact (hinit n 1).2
  · intro i
    exact predictLayers_act_w_cols (NewNetwork n h w weightInit actF actFP).1.Layers x i

/-- Witness for C6 at the demo architecture and a concrete input. -/
theorem predict_output_shape_witness :
    (∀ r c, (Mat.zeros r c).rows = r ∧ (Mat.zeros r c).cols = c)
    ∧ (Mat.zeros 1 2).rows = 1 ∧ (Mat.zeros 1 2).cols = 2
    ∧ (Predict (NewNetwork 2 1 2 Mat.zeros idAct idAct).1 (Mat.zeros 1 2)).2.rows = 1
    ∧ (Predict (NewNetwork 2 1 2 Mat.zeros idAct idAct).1 (Mat.zeros 1 2)).2.cols = 1 :=
  ⟨fun _ _ => ⟨rfl, rfl⟩, rfl, rfl,
   (predict_output_shape 2 1 2 Mat.zeros idAct idAct (Mat.zeros 1 2)
      (fun _ _ => ⟨rfl, rfl⟩) rfl rfl).1,
   (predict_output_shape 2 1 2 Mat.zeros idAct idAct (Mat.zeros 1 2)
      (fun _ _ => ⟨rfl, rfl⟩) rfl rfl).2.1⟩

/-- lastIsOutput xs holds when xs is empty or its final element carries the
output-layer flag; this is the part of the network invariant (spec section 3)
that the Train refinement needs. -/
def lastIsOutput : List Layer → Bool
  | [] => true
  | [l] => l.IsLastLayer
  | _ :: l :: rest => lastIsOutput (l :: rest)

/-- GoodNet is the constructed-network invariant Train relies on: the recorded
layer count matches the layer list and the final layer is the output layer. -/
def GoodNet (net : Network) : Prop :=
  net.NumberOfLayers = net.Layers.length ∧ lastIsOutput net.Layers = true

/-- Modelled from the spec (section 4.2): the backward sweep runs from the
output layer inward; each layer receives its right neighbour as it stands
right after that neighbour's own backward pass - current-sample delta,
pre-update weights. The seed handed to the rightmost layer is ignored there
because the output layer does not read its right neighbour. -/
def backSweep (target : Mat) : List Layer → Layer → List Layer × Layer
  | [], right => ([], right)
  | layer :: rest, right =>
      let swept := backSweep target rest right
      let layer' := BackwardPass layer target swept.2
      (layer' :: swept.1, layer')

/-- Modelled from the spec (section 4.2 Train): one sample is a full forward
pass, then a full backward sweep from the output layer to the input layer,
then a full update sweep from the input layer to the output layer threading
the original sample input and each layer's fresh activations. -/
def specTrainSample (network : Network) (tempInput tempTarget : Mat)
    (learningRate : ℚ) : Network :=
  let predicted := (Predict network tempInput).1
  let layersB := (backSweep tempTarget predicted.Layers default).1
  { predicted with Layers := updateLoop learningRate layersB tempInput }

/-- Modelled from the spec: one epoch visits the batch rows in the fixed order
0, 1, ..., N - 1 with no shuffling. -/
def specEpoch (batchInput batchTarget : Mat) (learningRate : ℚ)
    (network : Network) : Network :=
  (List.range batchInput.rows).foldl
    (fun m i => specTrainSample m (rowOf batchInput i) (rowOf batchTarget i) learningRate)
    network

/-- Modelled from the spec: training repeats the identical epoch, with no
convergence check and no early stopping. -/
def specTrainEpochs (batchInput batchTarget : Mat) (learningRate : ℚ) :
    Nat → Network → Network
  | 0, network => network
  | n + 1, network => specTrainEpochs batchInput batchTarget learningRate n
      (specEpoch batchInput batchTarget learningRate network)

/-- Modelled from the spec: Train as section 4.2 words it. -/
def specTrain (network : Network) (batchInput batchTarget : Mat)
    (learningRate : ℚ) (epochs : Int) : Network :=
  specTrainEpochs batchInput batchTarget learningRate epochs.toNat network

lemma backwardPass_flag (l : Layer) (t : Mat) (r : Layer) :
    (BackwardPass l t r).IsLastLayer = l.IsLastLayer := by
  cases hl : l.IsLastLayer <;> simp [BackwardPass, hl]

lemma backwardPass_last_irrel (l : Layer) (t : Mat) (r r' : Layer)
    (hl : l.IsLastLayer = true) : BackwardPass l t r = BackwardPass l t r' := by
  simp [BackwardPass, hl]

lemma backwardFrom_succ (t : Mat) (j : Nat) (layers : List Layer) (lastL : Layer) :
    backwardFrom t (j + 1) layers lastL
      = backwardFrom t j (layers.set j (BackwardPass (layers.getD j default) t lastL))
          (BackwardPass (layers.getD j default) t lastL) := rfl

lemma getD_append_len : ∀ (xs : List Layer) (x : Layer) (ys : List Layer) (d : Layer),
    (xs ++ x :: ys).getD xs.length d = x
  | [], _, _, _ => rfl
  | a :: xs, x, ys, d => by simpa using getD_append_len xs x ys d

lemma set_append_len : ∀ (xs : List Layer) (x u : Layer) (ys : List Layer),
    (xs ++ x :: ys).set xs.length u = xs ++ u :: ys
  | [], _, _, _ => rfl
  | a :: xs, x, u, ys => by simpa using set_append_len xs x u ys

lemma backSweep_snoc (t : Mat) : ∀ (xs : List Layer) (x right : Layer),
    backSweep t (xs ++ [x]) right
      = ((backSweep t xs (BackwardPass x t right)).1 ++ [BackwardPass x t right],
         (backSweep t xs (BackwardPass x t right)).2)
  | [], x, right => rfl
  | l :: ls, x, right => by
      have ih := backSweep_snoc t ls x right
      simp [backSweep, ih]

lemma backwardFrom_bridge (t : Mat) (front : List Layer) :
    ∀ (done : List Layer) (lastL : Layer),
      backwardFrom t front.length (front ++ done) lastL
        = ((backSweep t front lastL).1 ++ done, (backSweep t front lastL).2) := by
  induction front using List.reverseRecOn with
  | nil => intro done lastL; rfl
  | append_singleton xs x ih =>
      intro done lastL
      have h2 : (xs ++ [x]).length = xs.length + 1 := by simp
      have h1 : (xs ++ [x]) ++ done = xs ++ (x :: done) := by simp
      rw [h2, h1, backwardFrom_succ, getD_append_len, set_append_len,
        ih (BackwardPass x t lastL :: done) (BackwardPass x t lastL), backSweep_snoc]
      simp

lemma backwardFrom_full (t : Mat) (layers : List Layer) (lastL : Layer) :
    backwardFrom t layers.length layers lastL = backSweep t layers lastL := by
  have h := backwardFrom_bridge t layers [] lastL
  simpa using h

lemma backSweep_seed_irrel (t : Mat) :
    ∀ (layers : List Layer), lastIsOutput layers = true → ∀ (a b : Layer),
      (backSweep t layers a).1 = (backSweep t layers b).1
      ∧ (layers ≠ [] → (backSweep t layers a).2 = (backSweep t layers b).2)
  | [], _, a, b => ⟨rfl, fun hne => absurd rfl hne⟩
  | [l], h, a, b => by
      have hl : l.IsLastLayer = true := by simpa [lastIsOutput] using h
      have hbp := backwardPass_last_irrel l t a b hl
      exact ⟨by simp [backSweep, hbp], fun _ => by simp [backSweep, hbp]⟩
  | l :: l2 :: rest, h, a, b => by
      have h' : lastIsOutput (l2 :: rest) = true := by simpa [lastIsOutput] using h
      obtain ⟨h1, h2⟩ := backSweep_seed_irrel t (l2 :: rest) h' a b
      have h2' := h2 (by simp)
      refine ⟨?_, fun _ => ?_⟩
      · show BackwardPass l t (backSweep t (l2 :: rest) a).2 :: (backSweep t (l2 :: rest) a).1
          = BackwardPass l t (backSweep t (l2 :: rest) b).2 :: (backSweep t (l2 :: rest) b).1
        rw [h1, h2']
      · show BackwardPass l t (backSweep t (l2 :: rest) a).2
          = BackwardPass l t (backSweep t (l2 :: rest) b).2
        rw [h2']

lemma predictLayers_length : ∀ (layers : List Layer) (x : Mat),
    (predictLayers layers x).1.length = layers.length
  | [], _ => rfl
  | l :: rest, x => by
      simpa [predictLayers] using predictLayers_length rest (ForwardPass l x).Activations

lemma backSweep_length (t : Mat) : ∀ (layers : List Layer) (r : Layer),
    (backSweep t layers r).1.length = layers.length
  | [], _ => rfl
  | l :: rest, r => by simpa [backSweep] using backSweep_length t rest r

lemma updateLoop_length (lr : ℚ) : ∀ (layers : List Layer) (x : Mat),
    (updateLoop lr layers x).length = layers.length
  | [], _ => rfl
  | l :: rest, x => by
      simpa [updateLoop] using updateLoop_length lr rest (UpdateWeights l lr x).Activations

lemma predictLayers_flags : ∀ (layers : List Layer) (x : Mat) (i : Nat),
    ((predictLayers layers x).1.getD i default).IsLastLayer
      = (layers.getD i default).IsLastLayer
  | [], _, _ => rfl
  | l :: rest, x, 0 => rfl
  | l :: rest, x, i + 1 => by
      simpa [predictLayers] using predictLayers_flags rest (ForwardPass l x).Activations i

lemma backSweep_flags (t : Mat) : ∀ (layers : List Layer) (r : Layer) (i : Nat),
    ((backSweep t layers r).1.getD i default).IsLastLayer
      = (layers.getD i default).IsLastLayer
  | [], _, _ => rfl
  | l :: rest, r, 0 => by simp [backSweep, backwardPass_flag]
  | l :: rest, r, i + 1 => by
      simpa [backSweep] using backSweep_flags t rest r i

lemma updateLoop_flags (lr : ℚ) : ∀ (layers : List Layer) (x : Mat) (i : Nat),
    ((updateLoop lr layers x).getD i default).IsLastLayer
      = (layers.getD i default).IsLastLayer
  | [], _, _ => rfl
  | l :: rest, x, 0 => rfl
  | l :: rest, x, i + 1 => by
      simpa [updateLoop] using updateLoop_flags lr rest (UpdateWeights l lr x).Activations i

lemma lastIsOutput_congr : ∀ (xs ys : List Layer), xs.length = ys.length →
    (∀ i, (xs.getD i default).IsLastLayer = (ys.getD i default).IsLastLayer) →
    lastIsOutput xs = lastIsOutput ys
  | [], [], _, _ => rfl
  | [], y :: ys, hl, _ => by simp at hl
  | x :: xs, [], hl, _ => by simp at hl
  | [x], [y], _, hp => by simpa [lastIsOutput] using hp 0
  | [x], y :: y2 :: ys, hl, _ => by simp at hl
  | x :: x2 :: xs, [y], hl, _ => by simp at hl
  | x :: x2 :: xs, y :: y2 :: ys, hl, hp => by
      have h := lastIsOutput_congr (x2 :: xs) (y2 :: ys) (by simpa using hl)
        (fun i => by simpa using hp (i + 1))
      simpa [lastIsOutput] using h

lemma specTrainSample_good (net : Network) (x t : Mat) (lr : ℚ) (hg : GoodNet net) :
    GoodNet (specTrainSample net x t lr) := by
  obtain ⟨hlen, hout⟩ := hg
  have hlen2 : (updateLoop lr (backSweep t (predictLayers net.Layers x).1 default).1 x).length
      = net.Layers.length := by
    rw [updateLoop_length, backSweep_length, predictLayers_length]
  have hflags : ∀ i,
      ((updateLoop lr (backSweep t (predictLayers net.Layers x).1 default).1 x).getD i
          default).IsLastLayer
        = (net.Layers.getD i default).IsLastLayer := by
    intro i
    rw [updateLoop_flags, backSweep_flags, predictLayers_flags]
  constructor
  · show net.NumberOfLayers
      = (updateLoop lr (backSweep t (predictLayers net.Layers x).1 default).1 x).length
    rw [hlen2]
    exact hlen
  · show lastIsOutput
      (updateLoop lr (backSweep t (predictLayers net.Layers x).1 default).1 x) = true
    rw [lastIsOutput_congr _ net.Layers hlen2 hflags]
    exact hout

lemma trainSample_eq_spec (net : Network) (x t : Mat) (lr : ℚ) (lastL : Layer)
    (hg : GoodNet net) :
    (trainSample net x t lr lastL).1 = specTrainSample net x t lr := by
  obtain ⟨hlen, hout⟩ := hg
  have hplen : (predictLayers net.Layers x).1.length = net.Layers.length :=
    predictLayers_length net.Layers x
  have hbf : backwardFrom t net.NumberOfLayers (predictLayers net.Layers x).1 lastL
      = backSweep t (predictLayers net.Layers x).1 lastL := by
    rw [show net.NumberOfLayers = (predictLayers net.Layers x).1.length from by
      rw [hplen]; exact hlen]
    exact backwardFrom_full t (predictLayers net.Layers x).1 lastL
  have hpout : lastIsOutput (predictLayers net.Layers x).1 = true := by
    rw [lastIsOutput_congr (predictLayers net.Layers x).1 net.Layers hplen
      (predictLayers_flags net.Layers x)]
    exact hout
  have hseed := (backSweep_seed_irrel t (predictLayers net.Layers x).1 hpout lastL default).1
  show ({ (Predict net x).1 with
      Layers := updateLoop lr
        (backwardFrom t net.NumberOfLayers (predictLayers net.Layers x).1 lastL).1 x } : Network)
    = { (Predict net x).1 with
      Layers := updateLoop lr (backSweep t (predictLayers net.Layers x).1 default).1 x }
  rw [hbf, hseed]

lemma foldSamples_eq (bi bt : Mat) (lr : ℚ) :
    ∀ (idxs : List Nat) (net : Network) (lastL : Layer), GoodNet net →
      ((idxs.foldl (fun st i => trainSample st.1 (rowOf bi i) (rowOf bt i) lr st.2)
          (net, lastL)).1
        = idxs.foldl (fun m i => specTrainSample m (rowOf bi i) (rowOf bt i) lr) net)
      ∧ GoodNet (idxs.foldl (fun m i => specTrainSample m (rowOf bi i) (rowOf bt i) lr) net)
  | [], net, lastL, hg => ⟨rfl, hg⟩
  | i :: idxs, net, lastL, hg => by
      have h1 := trainSample_eq_spec net (rowOf bi i) (rowOf bt i) lr lastL hg
      have hg' : GoodNet (specTrainSample net (rowOf bi i) (rowOf bt i) lr) :=
        specTrainSample_good net (rowOf bi i) (rowOf bt i) lr hg
      have hg2 : GoodNet (trainSample net (rowOf bi i) (rowOf bt i) lr lastL).1 := by
        rw [h1]; exact hg'
      obtain ⟨ih1, ih2⟩ := foldSamples_eq bi bt lr idxs
        (trainSample net (rowOf bi i) (rowOf bt i) lr lastL).1
        (trainSample net (rowOf bi i) (rowOf bt i) lr lastL).2 hg2
      constructor
      · show (idxs.foldl (fun st i => trainSample st.1 (rowOf bi i) (rowOf bt i) lr st.2)
            (trainSample net (rowOf bi i) (rowOf bt i) lr lastL)).1
          = idxs.foldl (fun m i => specTrainSample m (rowOf bi i) (rowOf bt i) lr)
              (specTrainSample net (rowOf bi i) (rowOf bt i) lr)
        rw [← h1]
        exact ih1
      · show GoodNet (idxs.foldl (fun m i => specTrainSample m (rowOf bi i) (rowOf bt i) lr)
            (specTrainSample net (rowOf bi i) (rowOf bt i) lr))
        rw [← h1]
        exact ih2

lemma epochBody_eq_spec (bi bt : Mat) (lr : ℚ) (st : Network × Layer) (hg : GoodNet st.1) :
    (epochBody bi bt lr st).1 = specEpoch bi bt lr st.1
    ∧ GoodNet (specEpoch bi bt lr st.1) :=
  foldSamples_eq bi bt lr (List.range bi.rows) st.1 st.2 hg

lemma trainEpochs_eq_spec (bi bt : Mat) (lr : ℚ) :
    ∀ (n : Nat) (st : Network × Layer), GoodNet st.1 →
      (trainEpochs bi bt lr n st).1 = specTrainEpochs bi bt lr n st.1
      ∧ GoodNet (specTrainEpochs bi bt lr n st.1)
  | 0, st, hg => ⟨rfl, hg⟩
  | n + 1, st, hg => by
      obtain ⟨h1, hg'⟩ := epochBody_eq_spec bi bt lr st hg
      have hg2 : GoodNet (epochBody bi bt lr st).1 := by rw [h1]; exact hg'
      obtain ⟨ih1, ih2⟩ := trainEpochs_eq_spec bi bt lr n (epochBody bi bt lr st) hg2
      constructor
      · show (trainEpochs bi bt lr n (epochBody bi bt lr st)).1
          = specTrainEpochs bi bt lr n (specEpoch bi bt lr st.1)
        rw [ih1, h1]
      · show GoodNet (specTrainEpochs bi bt lr n (specEpoch bi bt lr st.1))
        rw [← h1]
        exact ih2

/-- C5: Train refines the spec's per-sample discipline: for any network whose
recorded layer count matches its layer list and whose final layer is the
output layer, Train coincides with the spec-shaped training loop in which,
within each sample, the full backward sweep (strict reverse order, each
non-output layer reading its right neighbour's current-sample delta and
pre-update weights) completes before any weight update, updates then run in
forward order, and samples are visited in the same fixed row order in every
epoch with no shuffling, convergence check, or early stopping. -/
theorem train_refines_spec (net : Network) (bi bt : Mat) (lr : ℚ) (epochs : Int)
    (hlen : net.NumberOfLayers = net.Layers.length)
    (hout : lastIsOutput net.Layers = true) :
    Train net bi bt lr epochs = specTrain net bi bt lr epochs :=
  (trainEpochs_eq_spec bi bt lr epochs.toNat
    (net, net.Layers.getD (net.NumberOfLayers - 1) default) ⟨hlen, hout⟩).1

/-- Witness for C5 on a concrete constructed network and batch. -/
theorem train_refines_spec_witness :
    (NewNetwork 1 0 1 Mat.zeros idAct idAct).1.NumberOfLayers
        = (NewNetwork 1 0 1 Mat.zeros idAct idAct).1.Layers.length
    ∧ lastIsOutput (NewNetwork 1 0 1 Mat.zeros idAct idAct).1.Layers = true
    ∧ Train (NewNetwork 1 0 1 Mat.zeros idAct idAct).1 (Mat.zeros 1 1) (Mat.zeros 1 1) 1 2
        = specTrain (NewNetwork 1 0 1 Mat.zeros idAct idAct).1 (Mat.zeros 1 1)
            (Mat.zeros 1 1) 1 2 :=
  ⟨rfl, rfl,
   train_refines_spec (NewNetwork 1 0 1 Mat.zeros idAct idAct).1
     (Mat.zeros 1 1) (Mat.zeros 1 1) 1 2 rfl rfl⟩

end GoNN
